import Mathlib

/-!
Verification of the diffusion sampling and noise-schedule subsystem of
`music-spectrogram-diffusion-pytorch` (files `lightning/diff.py` and
`lightning/ar.py`), shallowly embedded over the real numbers.

Tensors are modelled elementwise (a single scalar latent component) or as
lists of reals when batch structure matters; `torch` primitives such as
`sigmoid`, `softplus`, `expm1`, `clamp`, `chunk` and `linspace` are
embedded by their mathematical definitions.
-/

noncomputable section

/-- `torch.sigmoid x = 1 / (1 + exp (-x))`. -/
def sigmoid (x : ℝ) : ℝ := (1 + Real.exp (-x))⁻¹

/-- `F.softplus x = log (1 + exp x)`. -/
def softplus (x : ℝ) : ℝ := Real.log (1 + Real.exp x)

/-- `log_snr2as` from `lightning/diff.py`:
`var = (-log_snr).sigmoid(); return (1 - var).sqrt(), var`. -/
def log_snr2as (log_snr : ℝ) : ℝ × ℝ :=
  (Real.sqrt (1 - sigmoid (-log_snr)), sigmoid (-log_snr))

/-- `log_snr2logas` from `lightning/diff.py`:
`log_var = -F.softplus(log_snr); return 0.5 * (log_snr + log_var), log_var`. -/
def log_snr2logas (log_snr : ℝ) : ℝ × ℝ :=
  (0.5 * (log_snr + -softplus log_snr), -softplus log_snr)

/-- Class constant `DiffusionLM.logsnr_min = -20`. -/
def logsnr_min : ℝ := -20

/-- Class constant `DiffusionLM.logsnr_max = 20`. -/
def logsnr_max : ℝ := 20

/-- `b = math.atan(math.exp(-0.5 * self.logsnr_max))` in `get_log_snr`. -/
def snr_b : ℝ := Real.arctan (Real.exp (-0.5 * logsnr_max))

/-- `a = math.atan(math.exp(-0.5 * self.logsnr_min)) - b` in `get_log_snr`. -/
def snr_a : ℝ := Real.arctan (Real.exp (-0.5 * logsnr_min)) - snr_b

/-- `DiffusionLM.get_log_snr`: `-2.0 * torch.log(torch.tan(a * t + b))`. -/
def get_log_snr (t : ℝ) : ℝ := -2 * Real.log (Real.tan (snr_a * t + snr_b))

/-- The timestep grid `torch.linspace(0, 1, T)`: entry `i` is `i / (T - 1)`
for `T ≥ 2`, and the single entry `0` when `T = 1`. -/
def tGrid (T i : ℕ) : ℝ := if T ≤ 1 then 0 else (i : ℝ) / ((T : ℝ) - 1)

/-- `log_snr = self.get_log_snr(t)` on the grid (`DiffusionLM.forward`). -/
def grid_log_snr (T i : ℕ) : ℝ := get_log_snr (tGrid T i)

/-- `log_alpha, log_var = log_snr2logas(log_snr)` on the grid. -/
def grid_log_alpha (T i : ℕ) : ℝ := (log_snr2logas (grid_log_snr T i)).1

/-- Second component of `log_snr2logas(log_snr)` on the grid. -/
def grid_log_var (T i : ℕ) : ℝ := (log_snr2logas (grid_log_snr T i)).2

/-- `var = log_var.exp()` on the grid. -/
def grid_var (T i : ℕ) : ℝ := Real.exp (grid_log_var T i)

/-- `alpha = log_alpha.exp()` on the grid. -/
def grid_alpha (T i : ℕ) : ℝ := Real.exp (grid_log_alpha T i)

/-- `alpha_st = torch.exp(log_alpha[:-1] - log_alpha[1:])`: entry `s` is
`exp (log_alpha s - log_alpha (s+1))`. -/
def alpha_st (T s : ℕ) : ℝ :=
  Real.exp (grid_log_alpha T s - grid_log_alpha T (s + 1))

/-- `c = -torch.expm1(log_snr[1:] - log_snr[:-1]); c.relu_()`: entry `s` is
`relu (-(exp (log_snr (s+1) - log_snr s) - 1))`, with `relu x = max x 0`. -/
def step_c (T s : ℕ) : ℝ :=
  max (-(Real.exp (grid_log_snr T (s + 1) - grid_log_snr T s) - 1)) 0

/-- `torch.clamp(x, lo, hi) = min (max x lo) hi`. -/
def clampT (x lo hi : ℝ) : ℝ := min (max x lo) hi

/-- The in-place clamp of the guided prediction in `DiffusionLM.forward`:
`noise_hat.clamp_((z_t - alpha[t]) * var[t].rsqrt(), (alpha[t] + z_t) * var[t].rsqrt())`. -/
def clampedNoise (T t_idx : ℕ) (z nh : ℝ) : ℝ :=
  clampT nh ((z - grid_alpha T t_idx) * (Real.sqrt (grid_var T t_idx))⁻¹)
    ((grid_alpha T t_idx + z) * (Real.sqrt (grid_var T t_idx))⁻¹)

/-- The non-terminal latent update (`s_idx >= 0` branch of the loop):
`mu = (z_t - var[t].sqrt() * c[s] * noise_hat) * alpha_st[s]` followed by
`z_s = mu + (var[s] * c[s]).sqrt() * fresh`, with `s = t_idx - 1`. -/
def stepUpdate (T t_idx : ℕ) (z nh fresh : ℝ) : ℝ :=
  (z - Real.sqrt (grid_var T t_idx) * step_c T (t_idx - 1) * nh)
      * alpha_st T (t_idx - 1)
    + Real.sqrt (grid_var T (t_idx - 1) * step_c T (t_idx - 1)) * fresh

/-- The terminal branch (`t_idx = 0`):
`final = (z_t - var[0].sqrt() * noise_hat) / alpha[0]`. -/
def finalStep (T : ℕ) (z nh : ℝ) : ℝ :=
  (z - Real.sqrt (grid_var T 0) * nh) / grid_alpha T 0

/-- The reverse loop of `DiffusionLM.forward`, per latent component, from
step index `t_idx` down to `0`. `g t_idx z` is the guided (CFG-combined)
noise prediction at step `t_idx` with latent `z`; `fresh t_idx` is the
fresh Gaussian draw consumed at step `t_idx`. -/
def sampleLoop (T : ℕ) (g : ℕ → ℝ → ℝ) (fresh : ℕ → ℝ) : ℕ → ℝ → ℝ
  | 0, z => finalStep T z (clampedNoise T 0 z (g 0 z))
  | t_idx + 1, z =>
      sampleLoop T g fresh t_idx
        (stepUpdate T (t_idx + 1) z
          (clampedNoise T (t_idx + 1) z (g (t_idx + 1) z)) (fresh (t_idx + 1)))

/-- A full sampling run: the loop `for t_idx in range(T - 1, -1, -1)`
started at `t_idx = T - 1` from the initial latent `z0`. -/
def sampler (T : ℕ) (g : ℕ → ℝ → ℝ) (fresh : ℕ → ℝ) (z0 : ℝ) : ℝ :=
  sampleLoop T g fresh (T - 1) z0

/-- Modelled from the spec's words for claim C1 (to be compared with
`stepUpdate`, which is translated from the code): at a non-terminal step,
`alpha_step = exp(logAlpha[t] - logAlpha[t-1])`,
`c = relu(1 - exp(logSNR[t-1] - logSNR[t]))`,
`mean = alpha_step * (z_t - sqrt(var[t]) * c * noise_hat)` and
`z_s = mean + sqrt(var[t-1] * c) * fresh`. -/
def specStepUpdate (T t_idx : ℕ) (z nh fresh : ℝ) : ℝ :=
  Real.exp (grid_log_alpha T t_idx - grid_log_alpha T (t_idx - 1)) *
      (z - Real.sqrt (grid_var T t_idx) *
        max (1 - Real.exp (grid_log_snr T (t_idx - 1) - grid_log_snr T t_idx)) 0
        * nh)
    + Real.sqrt (grid_var T (t_idx - 1) *
        max (1 - Real.exp (grid_log_snr T (t_idx - 1) - grid_log_snr T t_idx)) 0)
      * fresh

/-- The training-time corruption of `DiffusionLM.get_training_inputs`, per
component: `z_t = x * alpha + sigma * noise` with
`alpha, var = log_snr2as(get_log_snr t)` and `sigma = var.sqrt()`. -/
def training_z_t (x t noise : ℝ) : ℝ :=
  x * (log_snr2as (get_log_snr t)).1
    + Real.sqrt (log_snr2as (get_log_snr t)).2 * noise

/-- The corrupted batch of `get_training_inputs` as a list over feature
components sharing one timestep `t` (one batch row). -/
def diffusionZ (spec : List ℝ) (t : ℝ) (noise : List ℝ) : List ℝ :=
  List.zipWith (fun x n => training_z_t x t n) spec noise

/-- Mean of a list of reals (`torch` mean reduction). -/
def meanL (l : List ℝ) : ℝ := l.sum / l.length

/-- `F.l1_loss` with the default mean reduction, for same-shape inputs. -/
def l1_loss (pred target : List ℝ) : ℝ :=
  meanL (List.zipWith (fun a b => |a - b|) pred target)

/-- `F.mse_loss` with the default mean reduction, for same-shape inputs. -/
def mse_loss (pred target : List ℝ) : ℝ :=
  meanL (List.zipWith (fun a b => (a - b) ^ 2) pred target)

/-- `DiffusionLM.training_step` loss: corrupt the spectrogram, call the
noise-prediction model (abstract; midi, context and dropout mask folded
into `model`), and return `F.l1_loss(noise_hat, noise)`. -/
def diffusionTrainingLoss (model : List ℝ → ℝ → List ℝ)
    (spec : List ℝ) (t : ℝ) (noise : List ℝ) : ℝ :=
  l1_loss (model (diffusionZ spec t noise) t) noise

/-- `past_spec = spec.roll(1, dims=1); past_spec[:, 0] = 0` along the time
axis of one batch row (`AutoregressiveLM.training_step`). -/
def arPastSpec (spec : List ℝ) : List ℝ :=
  match spec with
  | [] => []
  | _ :: _ => 0 :: spec.dropLast

/-- `AutoregressiveLM.training_step` loss: shift the target spectrogram,
call the autoregressive model (abstract; midi folded into `model`), and
return `F.mse_loss(pred, spec)`. -/
def arTrainingLoss (model : List ℝ → List ℝ) (spec : List ℝ) : ℝ :=
  mse_loss (model (arPastSpec spec)) spec

/-- One batched invocation of the external noise-prediction model
(`self.model(midi, z, t, context, dropout_mask=mask)`): per-example
conditioning `e`, latent component `z`, shared timestep `t` and a
per-example boolean drop-mask entry. Batch elements are independent. -/
def batchedModel {E : Type} (f : E → ℝ → ℝ → Bool → ℝ)
    (cond : List E) (z : List ℝ) (t : ℝ) (mask : List Bool) : List ℝ :=
  List.zipWith (fun p d => f p.1 p.2 t d) (cond.zip z) mask

/-- `x.chunk(2, dim=0)`: split a batch into two halves (first half gets
the extra element when the length is odd, as in `torch`). -/
def chunk2 (l : List ℝ) : List ℝ × List ℝ :=
  (l.take ((l.length + 1) / 2), l.drop ((l.length + 1) / 2))

/-- `dropout_mask = torch.tensor([0] * N + [1] * N).bool()`. -/
def cfgDropoutMask (N : ℕ) : List Bool :=
  List.replicate N false ++ List.replicate N true

/-- Classifier-free-guidance denoising from `DiffusionLM.forward`: double
the batch (`midi.repeat(2, 1)`, `z_t.repeat(2, 1, 1)`), call the model once
with the drop-mask false on the first half and true on the second, chunk
the output in two, and combine
`cond_noise_hat * w + uncond_noise_hat * (1 - w)` with `w = cfg_weighting`. -/
def guidedDenoise {E : Type} (f : E → ℝ → ℝ → Bool → ℝ) (w : ℝ)
    (cond : List E) (z : List ℝ) (t : ℝ) : List ℝ :=
  let out := batchedModel f (cond ++ cond) (z ++ z) t (cfgDropoutMask cond.length)
  let halves := chunk2 out
  List.zipWith (fun a b => a * w + b * (1 - w)) halves.1 halves.2

end

/-- A tensor shape: the list of dimension sizes. -/
abbrev Shape := List ℕ

/-- `x.repeat(*reps)` shape semantics: requires `reps` to have at least as
many entries as the tensor has dimensions; the shape is left-padded with
ones and multiplied entrywise by `reps`. -/
def torchRepeat (shape reps : List ℕ) : Except String Shape :=
  if shape.length ≤ reps.length then
    Except.ok (List.zipWith (fun r d => r * d)
      reps (List.replicate (reps.length - shape.length) 1 ++ shape))
  else
    Except.error "Number of dimensions of repeat dims can not be smaller than number of dimensions of tensor"

/-- The shape-level pre-loop setup of `DiffusionLM.forward` (lines between
context resolution and the reverse loop): create
`z_t = torch.randn(midi.shape[0], seq_length, output_dim)` — where the
access `midi.shape[0]` raises an IndexError on a 0-dimensional midi — then
double the midi batch with `midi.repeat(2, 1)` and the optional context
with `context.repeat(2, 1, 1)`. No comparison between the context shape and
the midi/latent shapes is performed. Returns the latent shape, the doubled
midi shape and the doubled context shape. -/
def forwardSetup (midiShape : Shape) (seqLength outputDim : ℕ)
    (contextShape : Option Shape) : Except String (Shape × Shape × Option Shape) :=
  match midiShape with
  | [] => Except.error "IndexError: tuple index out of range"
  | n :: rest =>
    match torchRepeat (n :: rest) [2, 1] with
    | Except.error e => Except.error e
    | Except.ok midi2 =>
      match contextShape with
      | none => Except.ok ([n, seqLength, outputDim], midi2, none)
      | some cs =>
        match torchRepeat cs [2, 1, 1] with
        | Except.error e => Except.error e
        | Except.ok c2 =>
            Except.ok ([n, seqLength, outputDim], midi2, some c2)

/-- Context resolution at the top of `DiffusionLM.forward`:
`if wav_context is not None: context = self.mel(wav_context)`
`elif mel_context is not None: context = mel_context`
`else: context = None`. -/
def resolveContext {W C : Type} (mel : W → C)
    (wavContext : Option W) (melContext : Option C) : Option C :=
  match wavContext with
  | some w => some (mel w)
  | none => melContext

/-! ## Helper lemmas -/

lemma sigmoid_neg_eq (x : ℝ) : sigmoid (-x) = (1 + Real.exp x)⁻¹ := by
  simp [sigmoid]

lemma one_add_exp_pos (x : ℝ) : 0 < 1 + Real.exp x := by
  positivity

lemma sigmoid_pos (x : ℝ) : 0 < sigmoid x := by
  rw [sigmoid]
  positivity

lemma sigmoid_lt_one (x : ℝ) : sigmoid x < 1 := by
  rw [sigmoid]
  rw [inv_lt_one_iff₀]
  right
  nlinarith [Real.exp_pos (-x)]

/-- `1 - sigmoid(-x) = exp x * sigmoid(-x)`: the signal share of the variance. -/
lemma one_sub_sigmoid_neg (x : ℝ) :
    1 - sigmoid (-x) = Real.exp x * sigmoid (-x) := by
  rw [sigmoid_neg_eq]
  have h := one_add_exp_pos x
  field_simp

/-- `exp (-softplus x) = sigmoid (-x)`. -/
lemma exp_neg_softplus (x : ℝ) : Real.exp (-softplus x) = sigmoid (-x) := by
  rw [softplus, Real.exp_neg, Real.exp_log (one_add_exp_pos x), sigmoid_neg_eq]

lemma snr_b_pos : 0 < snr_b := by
  have h : Real.arctan 0 < Real.arctan (Real.exp (-0.5 * logsnr_max)) :=
    Real.arctan_strictMono (Real.exp_pos _)
  rw [Real.arctan_zero] at h
  exact h

lemma snr_a_pos : 0 < snr_a := by
  have h : Real.arctan (Real.exp (-0.5 * logsnr_max))
      < Real.arctan (Real.exp (-0.5 * logsnr_min)) :=
    Real.arctan_strictMono
      (Real.exp_lt_exp.mpr (by norm_num [logsnr_min, logsnr_max]))
  rw [snr_a, snr_b]
  linarith

lemma snr_ab_eq : snr_a + snr_b = Real.arctan (Real.exp (-0.5 * logsnr_min)) := by
  rw [snr_a]
  ring

lemma snr_ab_lt : snr_a + snr_b < Real.pi / 2 := by
  rw [snr_ab_eq]
  exact Real.arctan_lt_pi_div_two _

lemma snr_arg_pos {t : ℝ} (h : 0 ≤ t) : 0 < snr_a * t + snr_b := by
  have h1 := snr_a_pos
  have h2 := snr_b_pos
  nlinarith

lemma snr_arg_lt {t : ℝ} (h : t ≤ 1) : snr_a * t + snr_b < Real.pi / 2 := by
  have h1 := snr_a_pos
  have h2 := snr_ab_lt
  nlinarith

lemma get_log_snr_zero : get_log_snr 0 = 20 := by
  rw [get_log_snr, mul_zero, zero_add, snr_b, logsnr_max]
  norm_num [Real.tan_arctan, Real.log_exp]

lemma get_log_snr_one : get_log_snr 1 = -20 := by
  rw [get_log_snr, mul_one, snr_ab_eq, Real.tan_arctan, Real.log_exp, logsnr_min]
  norm_num

lemma softplus_sub_softplus_neg (x : ℝ) : softplus x - softplus (-x) = x := by
  have hmul : (1 : ℝ) + Real.exp x = Real.exp x * (1 + Real.exp (-x)) := by
    rw [mul_add, mul_one, ← Real.exp_add]
    simp [add_comm]
  rw [softplus, softplus, hmul,
    Real.log_mul (Real.exp_ne_zero x) (ne_of_gt (one_add_exp_pos (-x))),
    Real.log_exp]
  ring

lemma tGrid_one_zero : tGrid 1 0 = 0 := by norm_num [tGrid]

lemma tGrid_two_zero : tGrid 2 0 = 0 := by norm_num [tGrid]

lemma tGrid_two_one : tGrid 2 1 = 1 := by norm_num [tGrid]

lemma grid_log_snr_two_zero : grid_log_snr 2 0 = 20 := by
  rw [grid_log_snr, tGrid_two_zero, get_log_snr_zero]

lemma grid_log_snr_two_one : grid_log_snr 2 1 = -20 := by
  rw [grid_log_snr, tGrid_two_one, get_log_snr_one]

lemma grid_log_alpha_two_diff : grid_log_alpha 2 0 - grid_log_alpha 2 1 = 10 := by
  have h := softplus_sub_softplus_neg 20
  rw [grid_log_alpha, grid_log_alpha, grid_log_snr_two_zero, grid_log_snr_two_one]
  simp only [log_snr2logas]
  norm_num at h ⊢
  linarith

/-! ## Claim theorems -/

/--
C4: the noise schedule is `logSNR(t) = -2 * log (tan (a*t + b))` with
`b = atan (exp (-0.5 * logsnr_max))`, `a = atan (exp (-0.5 * logsnr_min)) - b`
(defaults -20/20); on `[0,1]` it is strictly decreasing, with
`logSNR 0 = logsnr_max` and `logSNR 1 = logsnr_min` (exactly, over ℝ).
-/
theorem log_snr_schedule_boundary_strict_anti :
    (∀ t : ℝ, get_log_snr t =
      -2 * Real.log (Real.tan (snr_a * t + snr_b))) ∧
    get_log_snr 0 = logsnr_max ∧ get_log_snr 1 = logsnr_min ∧
    ∀ t1 t2 : ℝ, 0 ≤ t1 → t1 < t2 → t2 ≤ 1 → get_log_snr t2 < get_log_snr t1 := by
  refine ⟨fun t => rfl, ?_, ?_, ?_⟩
  · rw [get_log_snr_zero, logsnr_max]
  · rw [get_log_snr_one, logsnr_min]
  · intro t1 t2 h0 h12 h21
    have hu1pos : 0 < snr_a * t1 + snr_b := snr_arg_pos h0
    have hu2lt : snr_a * t2 + snr_b < Real.pi / 2 := snr_arg_lt h21
    have hlt : snr_a * t1 + snr_b < snr_a * t2 + snr_b := by
      have := snr_a_pos
      nlinarith
    have htan : Real.tan (snr_a * t1 + snr_b) < Real.tan (snr_a * t2 + snr_b) :=
      Real.tan_lt_tan_of_nonneg_of_lt_pi_div_two (le_of_lt hu1pos) hu2lt hlt
    have htanpos : 0 < Real.tan (snr_a * t1 + snr_b) :=
      Real.tan_pos_of_pos_of_lt_pi_div_two hu1pos (lt_trans hlt hu2lt)
    have hlog : Real.log (Real.tan (snr_a * t1 + snr_b))
        < Real.log (Real.tan (snr_a * t2 + snr_b)) :=
      Real.log_lt_log htanpos htan
    rw [get_log_snr, get_log_snr]
    linarith

/-- Witness for C4 at the endpoints `t1 = 0`, `t2 = 1`. -/
theorem log_snr_schedule_boundary_strict_anti_witness :
    (0 : ℝ) ≤ 0 ∧ (0 : ℝ) < 1 ∧ (1 : ℝ) ≤ 1 ∧ get_log_snr 1 < get_log_snr 0 :=
  ⟨le_refl 0, by norm_num, le_refl 1,
    log_snr_schedule_boundary_strict_anti.2.2.2 0 1 (le_refl 0) (by norm_num)
      (le_refl 1)⟩

/--
C5: for every logSNR value, the direct coefficients
`(alpha, var) = log_snr2as logSnr` satisfy `alpha^2 + var = 1` with
`alpha, var` (hence also `sigma = sqrt var`) in `(0,1)`, the log-domain
coefficients `(logAlpha, logVar) = log_snr2logas logSnr` satisfy
`exp logAlpha = alpha` and `exp logVar = var`, and therefore
`(exp logAlpha)^2 + exp logVar = 1` as well.
-/
theorem log_snr_coefficients_consistent (x : ℝ) :
    (log_snr2as x).1 ^ 2 + (log_snr2as x).2 = 1 ∧
    (0 < (log_snr2as x).1 ∧ (log_snr2as x).1 < 1) ∧
    (0 < (log_snr2as x).2 ∧ (log_snr2as x).2 < 1) ∧
    (0 < Real.sqrt (log_snr2as x).2 ∧ Real.sqrt (log_snr2as x).2 < 1) ∧
    Real.exp (log_snr2logas x).1 = (log_snr2as x).1 ∧
    Real.exp (log_snr2logas x).2 = (log_snr2as x).2 ∧
    Real.exp (log_snr2logas x).1 ^ 2 + Real.exp (log_snr2logas x).2 = 1 := by
  have hvpos : 0 < sigmoid (-x) := sigmoid_pos (-x)
  have hvlt : sigmoid (-x) < 1 := sigmoid_lt_one (-x)
  have hnonneg : 0 ≤ 1 - sigmoid (-x) := by linarith
  have hsum : (log_snr2as x).1 ^ 2 + (log_snr2as x).2 = 1 := by
    simp only [log_snr2as]
    rw [Real.sq_sqrt hnonneg]
    ring
  have halpha_pos : 0 < (log_snr2as x).1 := by
    simp only [log_snr2as]
    exact Real.sqrt_pos.mpr (by linarith)
  have halpha_lt : (log_snr2as x).1 < 1 := by
    simp only [log_snr2as]
    have h1 : Real.sqrt (1 - sigmoid (-x)) < Real.sqrt 1 :=
      Real.sqrt_lt_sqrt hnonneg (by linarith)
    simpa using h1
  have hexp_var : Real.exp (log_snr2logas x).2 = (log_snr2as x).2 := by
    simp only [log_snr2logas, log_snr2as]
    exact exp_neg_softplus x
  have hexp_alpha : Real.exp (log_snr2logas x).1 = (log_snr2as x).1 := by
    have hsq : Real.exp (log_snr2logas x).1 ^ 2 = 1 - sigmoid (-x) := by
      rw [← Real.exp_nat_mul]
      simp only [log_snr2logas]
      have harg : (2 : ℕ) * (0.5 * (x + -softplus x)) = x + -softplus x := by
        push_cast
        ring
      rw [harg, Real.exp_add, exp_neg_softplus, one_sub_sigmoid_neg]
    have h2 : Real.exp ((log_snr2logas x).1) =
        Real.sqrt (Real.exp ((log_snr2logas x).1) ^ 2) :=
      (Real.sqrt_sq (le_of_lt (Real.exp_pos _))).symm
    rw [h2, hsq]
    rfl
  refine ⟨hsum, ⟨halpha_pos, halpha_lt⟩, ⟨hvpos, hvlt⟩, ⟨?_, ?_⟩, hexp_alpha,
    hexp_var, ?_⟩
  · exact Real.sqrt_pos.mpr hvpos
  · have h1 : Real.sqrt ((log_snr2as x).2) < Real.sqrt 1 :=
      Real.sqrt_lt_sqrt (le_of_lt hvpos) hvlt
    simpa using h1
  · rw [hexp_alpha, hexp_var]
    exact hsum

/--
C1 (amended): for every non-terminal reverse step (`t_idx = s + 1`,
`s_idx = s ≥ 0`) the next latent is
`z_s = alpha_step * (z_t - sqrt(var[t]) * c * noise_hat) + sqrt(var[t-1] * c) * fresh`
with `alpha_step = exp(logAlpha[t-1] - logAlpha[t])` and
`c = relu(1 - exp(logSNR[t] - logSNR[t-1]))` (the claim's formulas with the
two exponent differences in the opposite order).
-/
theorem ancestral_update_formula (T s : ℕ) (z nh fresh : ℝ) :
    stepUpdate T (s + 1) z nh fresh =
      Real.exp (grid_log_alpha T s - grid_log_alpha T (s + 1)) *
        (z - Real.sqrt (grid_var T (s + 1)) *
          max (1 - Real.exp (grid_log_snr T (s + 1) - grid_log_snr T s)) 0 * nh)
      + Real.sqrt (grid_var T s *
          max (1 - Real.exp (grid_log_snr T (s + 1) - grid_log_snr T s)) 0)
        * fresh := by
  have hc : -(Real.exp (grid_log_snr T (s + 1) - grid_log_snr T s) - 1)
      = 1 - Real.exp (grid_log_snr T (s + 1) - grid_log_snr T s) := by ring
  simp only [stepUpdate, alpha_st, step_c, Nat.add_sub_cancel]
  rw [hc]
  ring

/--
Counterexample for C1 as stated: with `T = 2` and `t_idx = 1` the code's
update disagrees with the spec's formulas
`alpha_step = exp(logAlpha[t] - logAlpha[t-1])`,
`c = relu(1 - exp(logSNR[t-1] - logSNR[t]))` (`specStepUpdate`), both at
`(z, noise_hat, fresh) = (1, 0, 0)` (isolating `alpha_step`: the code
multiplies by `exp 10`, the spec's formula by `exp (-10)`) and at
`(0, 0, 1)` (isolating `c`: the code injects noise with positive standard
deviation, while the spec's `c` is `0`, injecting none).
-/
theorem ancestral_update_spec_formula_false :
    stepUpdate 2 1 1 0 0 ≠ specStepUpdate 2 1 1 0 0 ∧
    stepUpdate 2 1 0 0 1 ≠ specStepUpdate 2 1 0 0 1 := by
  have hls0 := grid_log_snr_two_zero
  have hls1 := grid_log_snr_two_one
  have hladiff := grid_log_alpha_two_diff
  constructor
  · have hcode : stepUpdate 2 1 1 0 0
        = Real.exp (grid_log_alpha 2 0 - grid_log_alpha 2 1) := by
      simp [stepUpdate, alpha_st]
    have hspec : specStepUpdate 2 1 1 0 0
        = Real.exp (grid_log_alpha 2 1 - grid_log_alpha 2 0) := by
      simp [specStepUpdate]
    have h2 : grid_log_alpha 2 1 - grid_log_alpha 2 0 = -10 := by linarith
    rw [hcode, hspec, hladiff, h2]
    intro h
    rw [Real.exp_eq_exp] at h
    norm_num at h
  · have hcode : stepUpdate 2 1 0 0 1
        = Real.sqrt (grid_var 2 0 * step_c 2 0) := by
      simp [stepUpdate]
    have hcpos : 0 < step_c 2 0 := by
      have hex : Real.exp (grid_log_snr 2 (0 + 1) - grid_log_snr 2 0) < 1 := by
        rw [show (0 + 1 : ℕ) = 1 from rfl, hls1, hls0]
        exact Real.exp_lt_one_iff.mpr (by norm_num)
      rw [step_c]
      rw [lt_max_iff]
      left
      linarith
    have hpos : 0 < Real.sqrt (grid_var 2 0 * step_c 2 0) :=
      Real.sqrt_pos.mpr (mul_pos (Real.exp_pos _) hcpos)
    have hspec : specStepUpdate 2 1 0 0 1 = 0 := by
      have hmax : max (1 - Real.exp (grid_log_snr 2 (1 - 1) - grid_log_snr 2 1)) 0
          = 0 := by
        rw [show (1 - 1 : ℕ) = 0 from rfl, hls0, hls1]
        apply max_eq_right
        have h1 := Real.one_le_exp (show (0 : ℝ) ≤ 20 - -20 by norm_num)
        linarith
      rw [specStepUpdate, hmax]
      simp
    rw [hcode, hspec]
    exact ne_of_gt hpos

/--
C3: the terminal reverse step (`t_idx = 0`) returns the deterministic
estimate `x0 = (z - sqrt(var[0]) * noise_hat) / alpha[0]` with no fresh
noise consumed; for `T = 1` the whole sampling run is exactly this single
step (independent of the fresh-noise stream), and the `T = 1` schedule grid
is the single well-defined point `t = 0` with `logSNR = logsnr_max`
(no division by zero).
-/
theorem terminal_step_deterministic (T : ℕ) (g : ℕ → ℝ → ℝ)
    (fresh fresh2 : ℕ → ℝ) (z : ℝ) :
    sampleLoop T g fresh 0 z
      = (z - Real.sqrt (grid_var T 0) * clampedNoise T 0 z (g 0 z))
          / grid_alpha T 0 ∧
    sampler 1 g fresh z
      = (z - Real.sqrt (grid_var 1 0) * clampedNoise 1 0 z (g 0 z))
          / grid_alpha 1 0 ∧
    sampler 1 g fresh z = sampler 1 g fresh2 z ∧
    tGrid 1 0 = 0 ∧
    grid_log_snr 1 0 = logsnr_max := by
  refine ⟨rfl, rfl, rfl, tGrid_one_zero, ?_⟩
  rw [grid_log_snr, tGrid_one_zero, get_log_snr_zero, logsnr_max]

/--
C6: at every reverse step the guided noise prediction is clamped into
`[(z - alpha[t]) / sqrt(var[t]), (z + alpha[t]) / sqrt(var[t])]`, so the
prediction used by the update always lies within that interval.
-/
theorem clamped_noise_within_range (T t_idx : ℕ) (z nh : ℝ) :
    (z - grid_alpha T t_idx) / Real.sqrt (grid_var T t_idx)
        ≤ clampedNoise T t_idx z nh ∧
    clampedNoise T t_idx z nh
        ≤ (z + grid_alpha T t_idx) / Real.sqrt (grid_var T t_idx) := by
  have halpha : 0 < grid_alpha T t_idx := Real.exp_pos _
  have hvar : 0 < grid_var T t_idx := Real.exp_pos _
  have hsqrt : 0 < Real.sqrt (grid_var T t_idx) := Real.sqrt_pos.mpr hvar
  have hinv : 0 < (Real.sqrt (grid_var T t_idx))⁻¹ := inv_pos.mpr hsqrt
  have hle : (z - grid_alpha T t_idx) * (Real.sqrt (grid_var T t_idx))⁻¹
      ≤ (grid_alpha T t_idx + z) * (Real.sqrt (grid_var T t_idx))⁻¹ := by
    apply mul_le_mul_of_nonneg_right _ (le_of_lt hinv)
    linarith
  constructor
  · rw [div_eq_mul_inv, clampedNoise, clampT]
    exact le_min (le_max_right _ _) hle
  · rw [div_eq_mul_inv, clampedNoise, clampT]
    have hcomm : (grid_alpha T t_idx + z) * (Real.sqrt (grid_var T t_idx))⁻¹
        = (z + grid_alpha T t_idx) * (Real.sqrt (grid_var T t_idx))⁻¹ := by
      ring
    rw [← hcomm]
    exact min_le_right _ _

/--
C7: the forward-diffusion round trip: with `z_t = x * alpha + sigma * noise`
as produced by `get_training_inputs` at timestep `t`, reconstructing
`(z_t - sigma * noise) / alpha` recovers `x` exactly over ℝ.
-/
theorem forward_diffusion_roundtrip (x t noise : ℝ) :
    (training_z_t x t noise - Real.sqrt (log_snr2as (get_log_snr t)).2 * noise)
        / (log_snr2as (get_log_snr t)).1 = x := by
  have hv : sigmoid (-(get_log_snr t)) < 1 := sigmoid_lt_one _
  have ha : 0 < (log_snr2as (get_log_snr t)).1 := by
    simp only [log_snr2as]
    exact Real.sqrt_pos.mpr (by linarith)
  rw [training_z_t]
  have hsimp : x * (log_snr2as (get_log_snr t)).1
      + Real.sqrt (log_snr2as (get_log_snr t)).2 * noise
      - Real.sqrt (log_snr2as (get_log_snr t)).2 * noise
      = x * (log_snr2as (get_log_snr t)).1 := by ring
  rw [hsimp, mul_div_assoc, div_self (ne_of_gt ha), mul_one]

lemma take_append_eq {α : Type} (l1 l2 : List α) (n : ℕ) (h : l1.length = n) :
    (l1 ++ l2).take n = l1 := by
  subst h
  exact List.take_left l1 l2

lemma drop_append_eq {α : Type} (l1 l2 : List α) (n : ℕ) (h : l1.length = n) :
    (l1 ++ l2).drop n = l2 := by
  subst h
  exact List.drop_left l1 l2

/-- A batched model call under a constant drop-mask is the per-example map. -/
lemma batchedModel_replicate {E : Type} (f : E → ℝ → ℝ → Bool → ℝ) (t : ℝ)
    (b : Bool) :
    ∀ (cond : List E) (z : List ℝ),
      batchedModel f cond z t (List.replicate cond.length b)
        = List.zipWith (fun e zi => f e zi t b) cond z := by
  intro cond
  induction cond with
  | nil => intro z; rfl
  | cons e es ih =>
      intro z
      cases z with
      | nil => rfl
      | cons zi zs =>
          have h := ih zs
          simp only [batchedModel, List.length_cons, List.replicate_succ,
            List.zip_cons_cons, List.zipWith_cons_cons] at h ⊢
          rw [h]

/-- Pointwise guidance combination of the two aligned halves. -/
lemma zipWith_comb {E : Type} (f : E → ℝ → ℝ → Bool → ℝ) (w t : ℝ) :
    ∀ (l1 : List E) (l2 : List ℝ),
      List.zipWith (fun a b => a * w + b * (1 - w))
          (List.zipWith (fun e zi => f e zi t false) l1 l2)
          (List.zipWith (fun e zi => f e zi t true) l1 l2)
        = List.zipWith
            (fun e zi => w * f e zi t false + (1 - w) * f e zi t true) l1 l2 := by
  intro l1
  induction l1 with
  | nil => intro l2; rfl
  | cons a as ih =>
      intro l2
      cases l2 with
      | nil => rfl
      | cons b bs =>
          simp only [List.zipWith_cons_cons]
          rw [ih bs]
          congr 1
          ring

/--
C2: the guided denoiser builds one doubled batch whose first half keeps the
side context (drop-mask false) and whose second half has it masked
(drop-mask true), calls the model once, chunks the result into conditioned
and unconditioned halves and combines them as `w * cond + (1 - w) * uncond`;
elementwise it equals that combination of the model at drop-mask false and
true on the single batch, and its length equals the single (non-doubled)
latent batch length.
-/
theorem guided_denoise_cfg_combination {E : Type} (f : E → ℝ → ℝ → Bool → ℝ)
    (w : ℝ) (cond : List E) (z : List ℝ) (t : ℝ)
    (h : cond.length = z.length) :
    guidedDenoise f w cond z t
      = List.zipWith (fun e zi => w * f e zi t false + (1 - w) * f e zi t true)
          cond z ∧
    (guidedDenoise f w cond z t).length = z.length := by
  have hA := batchedModel_replicate f t false cond z
  have hB := batchedModel_replicate f t true cond z
  have hlenF : (List.zipWith (fun e zi => f e zi t false) cond z).length
      = z.length := by
    rw [List.length_zipWith, h, min_self]
  have hlenG : (List.zipWith (fun e zi => f e zi t true) cond z).length
      = z.length := by
    rw [List.length_zipWith, h, min_self]
  have hout : batchedModel f (cond ++ cond) (z ++ z) t
      (cfgDropoutMask cond.length)
      = List.zipWith (fun e zi => f e zi t false) cond z
        ++ List.zipWith (fun e zi => f e zi t true) cond z := by
    rw [batchedModel, cfgDropoutMask, List.zip_append h,
      List.zipWith_append _ _ _ _ _
        (by rw [List.length_zip, List.length_replicate, h, min_self])]
    rw [← batchedModel, ← batchedModel, hA, hB]
  have hmain : guidedDenoise f w cond z t
      = List.zipWith (fun e zi => w * f e zi t false + (1 - w) * f e zi t true)
          cond z := by
    simp only [guidedDenoise]
    rw [hout]
    have hlen : ((List.zipWith (fun e zi => f e zi t false) cond z
        ++ List.zipWith (fun e zi => f e zi t true) cond z).length + 1) / 2
        = z.length := by
      rw [List.length_append, hlenF, hlenG]
      omega
    simp only [chunk2]
    rw [hlen, take_append_eq _ _ _ hlenF, drop_append_eq _ _ _ hlenF,
      zipWith_comb]
  refine ⟨hmain, ?_⟩
  rw [hmain, List.length_zipWith, h, min_self]

/-- Witness for C2 on a concrete batch of two examples. -/
theorem guided_denoise_cfg_combination_witness :
    ([(1 : ℝ), 2] : List ℝ).length = ([(5 : ℝ), 7] : List ℝ).length ∧
    (guidedDenoise (fun (e zi : ℝ) (_s : ℝ) (d : Bool) => if d then zi else e)
        2 [(1 : ℝ), 2] [(5 : ℝ), 7] 0
      = List.zipWith
          (fun e zi =>
            2 * (fun (e2 zi2 : ℝ) (_s : ℝ) (d : Bool) => if d then zi2 else e2)
                  e zi 0 false
            + (1 - 2) * (fun (e2 zi2 : ℝ) (_s : ℝ) (d : Bool) =>
                  if d then zi2 else e2) e zi 0 true)
          [(1 : ℝ), 2] [(5 : ℝ), 7] ∧
    (guidedDenoise (fun (e zi : ℝ) (_s : ℝ) (d : Bool) => if d then zi else e)
        2 [(1 : ℝ), 2] [(5 : ℝ), 7] 0).length = ([(5 : ℝ), 7] : List ℝ).length) :=
  ⟨rfl, guided_denoise_cfg_combination
    (fun (e zi : ℝ) (_s : ℝ) (d : Bool) => if d then zi else e) 2
    [(1 : ℝ), 2] [(5 : ℝ), 7] 0 rfl⟩

/--
C8: the diffusion variant's training objective is the mean absolute error
between the predicted and the injected noise, the autoregressive variant's
is expressed as the mean squared error between the predicted and the target
spectrogram, and both aggregate with the mean (illustrated on a concrete
batch: `l1_loss` and `mse_loss` divide the elementwise error sum by the
element count).
-/
theorem training_losses_l1_and_mse :
    (∀ (model : List ℝ → ℝ → List ℝ) (spec : List ℝ) (t : ℝ) (noise : List ℝ),
      diffusionTrainingLoss model spec t noise
        = meanL (List.zipWith (fun a b => |a - b|)
            (model (diffusionZ spec t noise) t) noise)) ∧
    (∀ (model : List ℝ → List ℝ) (spec : List ℝ),
      arTrainingLoss model spec
        = meanL (List.zipWith (fun a b => (a - b) ^ 2)
            (model (arPastSpec spec)) spec)) ∧
    l1_loss [(1 : ℝ), 3] [(0 : ℝ), 1] = (|(1 : ℝ) - 0| + |(3 : ℝ) - 1|) / 2 ∧
    mse_loss [(1 : ℝ), 3] [(0 : ℝ), 1]
      = (((1 : ℝ) - 0) ^ 2 + ((3 : ℝ) - 1) ^ 2) / 2 := by
  refine ⟨fun model spec t noise => rfl, fun model spec => rfl, ?_, ?_⟩
  · norm_num [l1_loss, meanL]
  · norm_num [mse_loss, meanL]

/--
Counterexample for C9 as stated: a context batch of 3 with arbitrary inner
sizes, combined with a midi batch of 2, is shape-incompatible, yet the
pre-loop setup of `DiffusionLM.forward` succeeds (returns `Except.ok`)
instead of failing fast with a shape-mismatch error.
-/
theorem forward_setup_validates_false :
    forwardSetup [2, 4] 16 128 (some [3, 99, 77])
      = Except.ok (([2, 16, 128] : Shape), ([4, 4] : Shape),
          some ([6, 99, 77] : Shape)) := by
  rfl

/--
C9 (amended): the sampler performs no shape-compatibility validation
between the score context and the latent batch before the loop: for every
midi shape of 1 or 2 dimensions (empty shapes already fail at the
`midi.shape[0]` access, with an IndexError rather than a shape-mismatch
error) and every optional (at most 3-D) context shape, compatible or not,
the pre-loop setup succeeds, so a mismatch can only surface inside the
external model call during the first reverse step.
-/
theorem forward_setup_never_fails (midiShape : Shape) (seqLength outputDim : ℕ)
    (contextShape : Option Shape) (hm0 : midiShape ≠ [])
    (hm : midiShape.length ≤ 2)
    (hc : ∀ cs, contextShape = some cs → cs.length ≤ 3) :
    (forwardSetup midiShape seqLength outputDim contextShape).isOk = true := by
  cases midiShape with
  | nil => exact absurd rfl hm0
  | cons n rest =>
    have h1 : torchRepeat (n :: rest) [2, 1]
        = Except.ok (List.zipWith (fun r d => r * d) [2, 1]
            (List.replicate ((2 : ℕ) - (n :: rest).length) 1 ++ (n :: rest))) := by
      rw [torchRepeat,
        if_pos (show List.length (n :: rest) ≤ ([2, 1] : List ℕ).length by
          simpa using hm)]
      norm_num
    cases contextShape with
    | none =>
        simp only [forwardSetup, h1]
        rfl
    | some cs =>
        have h2 : torchRepeat cs [2, 1, 1]
            = Except.ok (List.zipWith (fun r d => r * d) [2, 1, 1]
                (List.replicate ((3 : ℕ) - cs.length) 1 ++ cs)) := by
          rw [torchRepeat,
            if_pos (show List.length cs ≤ ([2, 1, 1] : List ℕ).length by
              simpa using hc cs rfl)]
          norm_num
        simp only [forwardSetup, h1, h2]
        rfl

/-- Witness for C9 (amended) at the incompatible concrete shapes. -/
theorem forward_setup_never_fails_witness :
    ([2, 4] : Shape) ≠ [] ∧ ([2, 4] : Shape).length ≤ 2 ∧
    (forwardSetup [2, 4] 16 128 (some [3, 99, 77])).isOk = true :=
  ⟨by simp, by norm_num, forward_setup_never_fails [2, 4] 16 128 (some [3, 99, 77])
    (by simp) (by norm_num) (by intro cs hcs; cases hcs; norm_num)⟩

/--
C10: context resolution precedence in `DiffusionLM.forward`: a provided
raw-waveform context is converted through the mel pipeline and used, and a
simultaneously provided precomputed mel context is silently ignored; with
only a mel context, it is used as-is; with neither, the context is `none`.
-/
theorem context_resolution_precedence {W C : Type} (mel : W → C) (w : W)
    (m : C) (mc : Option C) :
    resolveContext mel (some w) mc = some (mel w) ∧
    resolveContext mel none (some m) = some m ∧
    resolveContext mel none (none : Option C) = none :=
  ⟨rfl, rfl, rfl⟩
